import Mathlib

/-!
Verification of the task-bot's filtering, date-normalization and store
logic (src/task_bot/bot.py, src/task_bot/google_sheets.py).

Python strings are modelled as Lean `String` (a list of code points, like
Python's `str`); `datetime.now()` is modelled by passing the current date
as an explicit parameter.  Python `date` comparison and `timedelta`
arithmetic are modelled on proleptic-Gregorian ordinals (`toOrdinal`,
matching CPython's `date.toordinal`).  `str.lower` is modelled ASCII-only
(`Char.toLower`), which is faithful for all ASCII inputs.
-/

namespace TaskBot

/-- ASCII digit test, matching the character class `\d` used by Python's
`_strptime` regexes (ASCII digits; unicode digits are not modelled). -/
def isDigitCh (c : Char) : Bool := 48 ≤ c.toNat && c.toNat ≤ 57

/-- Numeric value of an ASCII digit character. -/
def digitVal (c : Char) : Nat := c.toNat - 48

/-- Decimal value of a list of digit characters. -/
def valOf (l : List Char) : Nat := l.foldl (fun a c => 10 * a + digitVal c) 0

/-- The ASCII digit character for a digit value (values ≥ 9 all map to
`'9'`; callers always pass a value < 10). -/
def digCharAux : Nat → Char
  | 0 => '0'
  | 1 => '1'
  | 2 => '2'
  | 3 => '3'
  | 4 => '4'
  | 5 => '5'
  | 6 => '6'
  | 7 => '7'
  | 8 => '8'
  | _ => '9'

/-- The ASCII digit character for `k % 10`; used to model `%02d`/`%04d`
zero-padded rendering in `strftime`. -/
def digChar (k : Nat) : Char := digCharAux (k % 10)

/-- Zero-padded two-digit rendering (`%02d`) of `n < 100`. -/
def pad2 (n : Nat) : List Char := [digChar (n / 10), digChar n]

/-- Zero-padded four-digit rendering (`%04d`-style `%Y`) of `n < 10000`. -/
def pad4 (n : Nat) : List Char :=
  [digChar (n / 1000), digChar (n / 100), digChar (n / 10), digChar n]

/-- A calendar date, as carried by Python `datetime.date`. -/
structure PyDate where
  year : Nat
  month : Nat
  day : Nat
deriving DecidableEq

def isLeapYear (y : Nat) : Bool := y % 4 == 0 && (y % 100 != 0 || y % 400 == 0)

def daysInMonth (y m : Nat) : Nat :=
  match m with
  | 1 => 31
  | 2 => if isLeapYear y then 29 else 28
  | 3 => 31
  | 4 => 30
  | 5 => 31
  | 6 => 30
  | 7 => 31
  | 8 => 31
  | 9 => 30
  | 10 => 31
  | 11 => 30
  | 12 => 31
  | _ => 0

/-- Successor date; models `now + timedelta(days=1)` taken at date level. -/
def nextDate (d : PyDate) : PyDate :=
  if d.day < daysInMonth d.year d.month then ⟨d.year, d.month, d.day + 1⟩
  else if d.month < 12 then ⟨d.year, d.month + 1, 1⟩
  else ⟨d.year + 1, 1, 1⟩

/-- Days in the years before `y` (proleptic Gregorian), as in CPython's
`_days_before_year`. -/
def daysBeforeYear (y : Nat) : Nat :=
  (y - 1) * 365 + (y - 1) / 4 - (y - 1) / 100 + (y - 1) / 400

/-- Days in year `y` before month `m`, as in CPython's `_days_before_month`. -/
def daysBeforeMonth (y m : Nat) : Nat :=
  match m with
  | 0 => 0
  | mm + 1 => daysBeforeMonth y mm + daysInMonth y mm

/-- Proleptic-Gregorian ordinal of a date (CPython `date.toordinal`:
0001-01-01 is ordinal 1).  Python `date` comparison and `timedelta`
addition correspond exactly to `Nat` comparison/addition on ordinals. -/
def toOrdinal (y m d : Nat) : Nat := daysBeforeYear y + daysBeforeMonth y m + d

/-- Longest digit-character prefix and the rest, like a regex digit group
followed by a non-digit separator. -/
def takeDigits : List Char → List Char × List Char
  | [] => ([], [])
  | c :: cs =>
    if isDigitCh c then
      let p := takeDigits cs
      (c :: p.1, p.2)
    else ([], c :: cs)

/-- ASCII whitespace, the characters matched by `\s` in Python's
`_strptime` regex (unicode whitespace is not modelled). -/
def pyIsSpace (c : Char) : Bool :=
  c == ' ' || c == '\t' || c == '\n' || c == '\r' || c == '\x0b' || c == '\x0c'

def takeSpaces : List Char → List Char × List Char
  | [] => ([], [])
  | c :: cs =>
    if pyIsSpace c then
      let p := takeSpaces cs
      (c :: p.1, p.2)
    else ([], c :: cs)

/-- One numeric field of Python's `_strptime`: a run of one or two digit
characters whose value lies in `[lo, hi]` (the `%m`/`%d`/`%H`/`%M` regex
alternations are equivalent to this).  Returns the value and the rest. -/
def parseNum2 (lo hi : Nat) (l : List Char) : Option (Nat × List Char) :=
  let p := takeDigits l
  if (p.1.length == 1 || p.1.length == 2) && lo ≤ valOf p.1 && valOf p.1 ≤ hi then
    some (valOf p.1, p.2)
  else none

/-- The `%Y` field: exactly four digit characters. -/
def parseY4 : List Char → Option (Nat × List Char)
  | c1 :: c2 :: c3 :: c4 :: rest =>
    if isDigitCh c1 && isDigitCh c2 && isDigitCh c3 && isDigitCh c4 then
      some (valOf [c1, c2, c3, c4], rest)
    else none
  | _ => none

/-- A literal character of the format string: consumed exactly. -/
def expectChar (c : Char) : List Char → Option (List Char)
  | x :: r => if x == c then some r else none
  | [] => none

/-- `datetime.strptime(s, "%Y-%m-%d")`: Python's lenient parse (month and
day may be one or two digits), full-match required, plus the calendar
validation performed when the `date` object is constructed (year ≥ 1,
day within the month). -/
def pyStrptimeYMD (s : String) : Option (Nat × Nat × Nat) :=
  match parseY4 s.data with
  | none => none
  | some (y, r0) =>
    match expectChar '-' r0 with
    | none => none
    | some r1 =>
      match parseNum2 1 12 r1 with
      | none => none
      | some (m, r2) =>
        match expectChar '-' r2 with
        | none => none
        | some r3 =>
          match parseNum2 1 31 r3 with
          | none => none
          | some (d, r4) =>
            if r4.isEmpty then
              if 1 ≤ y && d ≤ daysInMonth y m then some (y, m, d) else none
            else none

/-- `datetime.strptime(s, "%Y-%m-%d %H:%M")`: as `pyStrptimeYMD`, with the
format's space matching one or more whitespace characters (`\s+`), hours
0–23 and minutes 0–59 of one or two digits. -/
def pyStrptimeYMDHM (s : String) : Option (Nat × Nat × Nat × Nat × Nat) :=
  match parseY4 s.data with
  | none => none
  | some (y, r0) =>
    match expectChar '-' r0 with
    | none => none
    | some r1 =>
      match parseNum2 1 12 r1 with
      | none => none
      | some (m, r2) =>
        match expectChar '-' r2 with
        | none => none
        | some r3 =>
          match parseNum2 1 31 r3 with
          | none => none
          | some (d, r4) =>
            let q := takeSpaces r4
            if q.1.isEmpty then none
            else
              match parseNum2 0 23 q.2 with
              | none => none
              | some (h, r5) =>
                match expectChar ':' r5 with
                | none => none
                | some r6 =>
                  match parseNum2 0 59 r6 with
                  | none => none
                  | some (mi, r7) =>
                    if r7.isEmpty then
                      if 1 ≤ y && d ≤ daysInMonth y m then some (y, m, d, h, mi)
                      else none
                    else none

/-- `dt.strftime("%Y-%m-%d")` character list. -/
def fmtDateChars (y m d : Nat) : List Char :=
  pad4 y ++ '-' :: pad2 m ++ '-' :: pad2 d

/-- `dt.strftime("%Y-%m-%d")`. -/
def fmtDate (y m d : Nat) : String := String.mk (fmtDateChars y m d)

/-- `dt.strftime("%Y-%m-%d %H:%M")`. -/
def fmtDateTime (y m d h mi : Nat) : String :=
  String.mk (fmtDateChars y m d ++ ' ' :: pad2 h ++ ':' :: pad2 mi)

/-- `str.lower()`, ASCII-only. -/
def lowerStr (s : String) : String := String.mk (s.data.map Char.toLower)

/-- Substring containment over character lists (Python's `pat in s`). -/
def containsSub : List Char → List Char → Bool
  | _, [] => true
  | [], _ :: _ => false
  | c :: rest, p :: ps =>
    List.isPrefixOf (p :: ps) (c :: rest) || containsSub rest (p :: ps)

/-- Python's `pat in s` on strings. -/
def strContainsSub (s pat : String) : Bool := containsSub s.data pat.data

/-- `bot.parse_relative_due_date` (bot.py:225-272), with `datetime.now()`
passed in as `today`.  The `"today"`/`"tomorrow"` branches render
`strftime("%Y-%m-%d 23:59")` (the `time_part` variable is always
`"23:59"`); otherwise the string is tried against `%Y-%m-%d %H:%M` and
then `%Y-%m-%d`, and the parsed value is re-rendered by `strftime`. -/
def parse_relative_due_date (today : PyDate) (due_date_str : String) : Option String :=
  if due_date_str == "" then none
  else
    let low := lowerStr due_date_str
    if strContainsSub low "today" then
      some (fmtDate today.year today.month today.day ++ " 23:59")
    else if strContainsSub low "tomorrow" then
      let t := nextDate today
      some (fmtDate t.year t.month t.day ++ " 23:59")
    else
      match pyStrptimeYMDHM due_date_str with
      | some (y, m, d, h, mi) => some (fmtDateTime y m d h mi)
      | none =>
        match pyStrptimeYMD due_date_str with
        | some (y, m, d) => some (fmtDate y m d ++ " 23:59")
        | none => none

/-! ## The task store (google_sheets.py)

A worksheet is the header row (implicit, always the canonical
`[task_id, title, status, assignee_id, due_date, created_at]` written by
`init_sheet`) followed by task rows; each cell is a string. -/

def STATUS_PENDING : String := "pending"
def STATUS_COMPLETED : String := "completed"

/-- One task row of the sheet (cells as stored, all text). -/
structure Row where
  task_id : String
  title : String
  status : String
  assignee_id : String
  due_date : String
  created_at : String
deriving DecidableEq

/-- Python truthiness of an optional-string argument (`if status:`):
`None` and `""` are falsy. -/
def truthy (o : Option String) : Bool := !(o.getD "" == "")

/-- `s.split(" ")[0]`: the part of the string before the first space. -/
def datePortion (s : String) : String :=
  String.mk (s.data.takeWhile (fun c => !(c == ' ')))

/-- The date-range filter body of `read_tasks` (google_sheets.py:132-163):
keep a task iff its `due_date` is non-empty, its date portion parses with
`%Y-%m-%d`, and the parsed date passes the selected range test.  Rows that
fail are skipped (`continue`) — never an error. -/
def dateRangeKeep (todayOrd : Nat) (rng : String) (t : Row) : Bool :=
  if t.due_date == "" then false
  else
    match pyStrptimeYMD (datePortion t.due_date) with
    | none => false
    | some (y, m, d) =>
      let dd := toOrdinal y m d
      if rng == "today" then dd == todayOrd
      else if rng == "this_week" then
        let sow := todayOrd - (todayOrd - 1) % 7
        sow ≤ dd && dd ≤ sow + 6
      else if rng == "next_seven_days" then
        todayOrd ≤ dd && dd < todayOrd + 7
      else datePortion t.due_date == rng

/-- `google_sheets.read_tasks` (google_sheets.py:96-168), with
`datetime.now().date()` passed as an ordinal.  The loop-with-`continue`
structure is the corresponding `filter`. -/
def read_tasks (rows : List Row) (assignee_id : Option String)
    (due_date_range : Option String) (status : Option String)
    (todayOrd : Nat) : List Row :=
  let tasks := rows
  let tasks :=
    if truthy status then tasks.filter (fun t => t.status == status.getD "") else tasks
  let tasks :=
    if truthy assignee_id then
      tasks.filter (fun t => t.assignee_id == assignee_id.getD "")
    else tasks
  if truthy due_date_range then
    tasks.filter (dateRangeKeep todayOrd (due_date_range.getD ""))
  else tasks

/-- `str.isdigit()` (ASCII) followed by `int(s)`: `some` iff the string is
a non-empty run of digits. -/
def strToNatDigits (s : String) : Option Nat :=
  if !s.data.isEmpty && s.data.all isDigitCh then some (valOf s.data) else none

/-- `google_sheets.get_next_task_id` (google_sheets.py:55-69):
`col_values(1)` is the header cell followed by the task-id cells. -/
def get_next_task_id (rows : List Row) : Nat :=
  let task_ids := "task_id" :: rows.map (fun r => r.task_id)
  if task_ids.length ≤ 1 then 1
  else
    let numeric_ids := (task_ids.drop 1).filterMap strToNatDigits
    if numeric_ids.isEmpty then 1
    else numeric_ids.foldl Nat.max 0 + 1

/-- `google_sheets.add_task` (google_sheets.py:71-94), with
`datetime.now()` passed as the `created_at` string.  Returns the new sheet
and the assigned id. -/
def add_task (rows : List Row) (title : String) (assignee_id due_date : Option String)
    (created_at : String) : List Row × Nat :=
  let tid := get_next_task_id rows
  (rows ++ [⟨toString tid, title, STATUS_PENDING, assignee_id.getD "",
            due_date.getD "", created_at⟩], tid)

/-- The in-place field rewrite of `update_task`: `None` means "no change"
for a parameter; `task_id`, `status` and `created_at` cells are copied
from the current row. -/
def applyUpd (nt na nd : Option String) (r : Row) : Row :=
  { r with title := nt.getD r.title, assignee_id := na.getD r.assignee_id,
           due_date := nd.getD r.due_date }

def applyUpdAt (nt na nd : Option String) : List Row → Nat → List Row
  | [], _ => []
  | r :: rs, 0 => applyUpd nt na nd r :: rs
  | r :: rs, Nat.succ i => r :: applyUpdAt nt na nd rs i

/-- The id-to-row lookup of `update_task` (google_sheets.py:178-182): the
dict comprehension keeps, for each integer id, the LAST row whose id cell
is all digits and equals it. -/
def lastIdxMatching (tid : Int) : List Row → Option Nat
  | [] => none
  | r :: rs =>
    match lastIdxMatching tid rs with
    | some j => some (j + 1)
    | none =>
      if (strToNatDigits r.task_id).map Int.ofNat == some tid then some 0 else none

/-- `google_sheets.update_task` (google_sheets.py:170-222). -/
def update_task (rows : List Row) (tid : Int)
    (new_title new_assignee_id new_due_date : Option String) : List Row × Bool :=
  match lastIdxMatching tid rows with
  | none => (rows, false)
  | some i => (applyUpdAt new_title new_assignee_id new_due_date rows i, true)

def setStatusAt (st : String) : List Row → Nat → List Row
  | [], _ => []
  | r :: rs, 0 => { r with status := st } :: rs
  | r :: rs, Nat.succ i => r :: setStatusAt st rs i

/-- `worksheet.find(q, in_column=1)`: first row (top-down) whose id cell
equals `q` exactly (the header cell `"task_id"` never equals `str(int)`). -/
def findRowIdx (q : String) : List Row → Option Nat
  | [] => none
  | r :: rs =>
    if r.task_id == q then some 0 else (findRowIdx q rs).map (· + 1)

/-- `google_sheets.mark_task_complete` (google_sheets.py:224-252): finds
the row by `str(task_id)` and overwrites the status cell with
`STATUS_COMPLETED`, whatever its current value. -/
def mark_task_complete (rows : List Row) (tid : Int) : List Row × Bool :=
  match findRowIdx (toString tid) rows with
  | none => (rows, false)
  | some i => (setStatusAt STATUS_COMPLETED rows i, true)

/-! ## Handlers (bot.py) -/

/-- `int(s)` on a string: optional surrounding whitespace, optional sign,
then digits (digit-group underscores are not modelled). -/
def pyInt (s : String) : Option Int :=
  let t := s.data.dropWhile pyIsSpace
  let t := (t.reverse.dropWhile pyIsSpace).reverse
  match t with
  | '-' :: ds =>
    if !ds.isEmpty && ds.all isDigitCh then some (-(Int.ofNat (valOf ds))) else none
  | '+' :: ds =>
    if !ds.isEmpty && ds.all isDigitCh then some (Int.ofNat (valOf ds)) else none
  | ds => if !ds.isEmpty && ds.all isDigitCh then some (Int.ofNat (valOf ds)) else none

/-- The due-date fallback of `handle_add_task` (bot.py:296-306), applied
to a truthy `due_date` argument: the normalizer's result if it succeeds,
else `s + " 23:59"` when `s` has no `':'` and exactly 10 characters, else
`s` unchanged and unvalidated. -/
def addTaskDueFallback (today : PyDate) (s : String) : String :=
  match parse_relative_due_date today s with
  | some p => p
  | none =>
    if !(s.data.contains ':') && s.length == 10 then s ++ " 23:59" else s

/-- The due-date fallback of `handle_update_task` (bot.py:472-478),
textually the same computation as in `handle_add_task`. -/
def updateTaskDueFallback (today : PyDate) (s : String) : String :=
  match parse_relative_due_date today s with
  | some p => p
  | none =>
    if !(s.data.contains ':') && s.length == 10 then s ++ " 23:59" else s

/-- A user mentioned in the triggering message, as far as the update
handler consults it (bot.py:484-488). -/
structure Mention where
  id : Nat
  name : String
  mention : String
deriving DecidableEq

/-- bot.py:484-490: first mention whose token or name equals the
assignee string wins; otherwise the raw string is stored. -/
def resolveNewAssignee (mentions : List Mention) (s : String) : String :=
  match mentions.find? (fun u => s == u.mention || s == u.name) with
  | some u => toString u.id
  | none => s

/-- The argument mapping for `update_task` as produced by the intent
oracle; `none` models an absent key (a key present with a JSON null is
not modelled — the handler folds it into the same branches). -/
structure UpdateArgs where
  target_task_id : Option String
  new_title : Option String
  new_due_date : Option String
  new_assignee : Option String
deriving DecidableEq

inductive UpdateReply
  | promptForId
  | invalidIdFormat
  | promptNoFields
  | updated (tid : Int)
  | notFoundOrError (tid : Int)
deriving DecidableEq

/-- `bot.handle_update_task` (bot.py:438-518) reduced to its effect on the
store plus the reply class.  Note the guard at bot.py:466: if none of the
three `new_*` values is truthy (`new_assignee = ""` is falsy), the handler
replies "Please specify what you want to update" and stops before the
key-presence logic at bot.py:482-503 is reached.  The `if not
update_kwargs` safeguard at bot.py:506 is unreachable (the truthiness
guard guarantees at least one kwargs key) and is not modelled. -/
def handle_update_task (today : PyDate) (mentions : List Mention)
    (rows : List Row) (args : UpdateArgs) : List Row × UpdateReply :=
  match args.target_task_id with
  | none => (rows, .promptForId)
  | some tidStr =>
    match pyInt tidStr with
    | none => (rows, .invalidIdFormat)
    | some tid =>
      if !(truthy args.new_title || truthy args.new_due_date || truthy args.new_assignee) then
        (rows, .promptNoFields)
      else
        let parsed_new_due_date : Option String :=
          match args.new_due_date with
          | some s => if s == "" then none else some (updateTaskDueFallback today s)
          | none => none
        let new_assignee_id : Option String :=
          match args.new_assignee with
          | some s => if s == "" then some "" else some (resolveNewAssignee mentions s)
          | none => none
        let res := update_task rows tid args.new_title new_assignee_id parsed_new_due_date
        if res.2 then (res.1, .updated tid) else (res.1, .notFoundOrError tid)

/-- gspread `get_all_records` numericises all-digit cells to `int`; the
complete handler renders matched ids with `str(...)`.  Non-digit cells
pass through as the stored text (float cells are not modelled). -/
def numericiseId (s : String) : String :=
  match strToNatDigits s with
  | some n => toString n
  | none => s

structure CompleteArgs where
  target_task_id : Option String
  target_task_title : Option String
deriving DecidableEq

inductive CompleteReply
  | invalidIdFormat
  | ambiguousTitle (ids : List String)
  | titleNotFound
  | titleLookupError
  | promptForIdOrTitle
  | completedOk (tid : Int)
  | completeFailed (tid : Int)
deriving DecidableEq

/-- The tail of `handle_complete_task`: `mark_task_complete` plus the
success/failure reply (bot.py:576-584). -/
def runMark (rows : List Row) (tid : Int) : List Row × CompleteReply :=
  let res := mark_task_complete rows tid
  if res.2 then (res.1, .completedOk tid) else (res.1, .completeFailed tid)

/-- `bot.handle_complete_task` (bot.py:520-584) reduced to its effect on
the store plus the reply class.  Title resolution (bot.py:539-569) reads
the pending tasks, filters them by case-insensitive exact title match,
and completes only on a unique match; ambiguity and not-found stop with
the store untouched. -/
def handle_complete_task (rows : List Row) (args : CompleteArgs)
    (todayOrd : Nat) : List Row × CompleteReply :=
  match args.target_task_id with
  | some s =>
    match pyInt s with
    | none => (rows, .invalidIdFormat)
    | some tid => runMark rows tid
  | none =>
    match args.target_task_title with
    | some t =>
      if t == "" then (rows, .promptForIdOrTitle)
      else
        let tasks_found := read_tasks rows none none (some STATUS_PENDING) todayOrd
        let matched := tasks_found.filter (fun r => lowerStr r.title == lowerStr t)
        if matched.length == 1 then
          match matched.head? with
          | some r =>
            match strToNatDigits r.task_id with
            | some n => runMark rows (Int.ofNat n)
            | none => (rows, .titleLookupError)
          | none => (rows, .titleNotFound)
        else if matched.length > 1 then
          (rows, .ambiguousTitle (matched.map (fun r => numericiseId r.task_id)))
        else (rows, .titleNotFound)
    | none => (rows, .promptForIdOrTitle)

/-! ## Reminder scanner (bot.py:59-165) -/

/-- The bucketing loop of `reminder_loop` (bot.py:93-106): tasks with a
falsy or unparsable `due_date` are skipped; a task goes to the due-today
bucket iff its date equals today, else to due-tomorrow iff it equals
today+1, else to upcoming iff today < date < today+7. -/
def bucketize (todayOrd : Nat) : List Row → List Row × List Row × List Row
  | [] => ([], [], [])
  | t :: ts =>
    let rest := bucketize todayOrd ts
    if t.due_date == "" then rest
    else
      match pyStrptimeYMD (datePortion t.due_date) with
      | none => rest
      | some (y, m, d) =>
        let dd := toOrdinal y m d
        if dd == todayOrd then (t :: rest.1, rest.2.1, rest.2.2)
        else if dd == todayOrd + 1 then (rest.1, t :: rest.2.1, rest.2.2)
        else if todayOrd < dd && dd < todayOrd + 7 then
          (rest.1, rest.2.1, t :: rest.2.2)
        else rest

/-- The Python string `"\n...(truncated)"` appended on truncation
(bot.py:149), as a code-point list. -/
def truncationMarker : List Char :=
  ['\n', '.', '.', '.', '(', 't', 'r', 'u', 'n', 'c', 'a', 't', 'e', 'd', ')']

/-- The outbound-size handling of `reminder_loop` (bot.py:144-151): the
message actually passed to `channel.send`, as a function of the combined
rendered body (a Python string = code-point list). -/
def reminderSend (full_message : List Char) : List Char :=
  if full_message.length > 2000 then full_message.take 1990 ++ truncationMarker
  else full_message

/-! ## Spec-side definitions

These two predicates follow the spec's words, not the code: "Matches
`YYYY-MM-DD` exactly" / "Matches `YYYY-MM-DD HH:MM` exactly" — the
zero-padded canonical shapes, re-validated as real dates/times.  They are
used to compare the spec's claim against `parse_relative_due_date`. -/

/-- The spec's "matches `YYYY-MM-DD` exactly": ten characters, digits in
the `YYYY`/`MM`/`DD` slots, dashes between, and a valid calendar date. -/
def specCanonYMD (s : String) : Bool :=
  match s.data with
  | [a1, a2, a3, a4, '-', b1, b2, '-', c1, c2] =>
    isDigitCh a1 && isDigitCh a2 && isDigitCh a3 && isDigitCh a4 &&
    isDigitCh b1 && isDigitCh b2 && isDigitCh c1 && isDigitCh c2 &&
    (let y := valOf [a1, a2, a3, a4]
     let m := valOf [b1, b2]
     let d := valOf [c1, c2]
     1 ≤ y && 1 ≤ m && m ≤ 12 && 1 ≤ d && d ≤ daysInMonth y m)
  | _ => false

/-- The spec's "matches `YYYY-MM-DD HH:MM` exactly". -/
def specCanonYMDHM (s : String) : Bool :=
  match s.data with
  | [a1, a2, a3, a4, '-', b1, b2, '-', c1, c2, ' ', h1, h2, ':', m1, m2] =>
    isDigitCh a1 && isDigitCh a2 && isDigitCh a3 && isDigitCh a4 &&
    isDigitCh b1 && isDigitCh b2 && isDigitCh c1 && isDigitCh c2 &&
    isDigitCh h1 && isDigitCh h2 && isDigitCh m1 && isDigitCh m2 &&
    (let y := valOf [a1, a2, a3, a4]
     let m := valOf [b1, b2]
     let d := valOf [c1, c2]
     1 ≤ y && 1 ≤ m && m ≤ 12 && 1 ≤ d && d ≤ daysInMonth y m &&
     valOf [h1, h2] ≤ 23 && valOf [m1, m2] ≤ 59)
  | _ => false

/-! ## Lemmas about digits, padding and the strptime model -/

theorem digitVal_digCharAux (n : Nat) (h : n < 10) : digitVal (digCharAux n) = n := by
  rcases (by omega : n = 0 ∨ n = 1 ∨ n = 2 ∨ n = 3 ∨ n = 4 ∨ n = 5 ∨ n = 6 ∨ n = 7 ∨
    n = 8 ∨ n = 9) with h | h | h | h | h | h | h | h | h | h <;> subst h <;> decide

theorem digitVal_digChar (k : Nat) : digitVal (digChar k) = k % 10 :=
  digitVal_digCharAux _ (Nat.mod_lt _ (by decide))

theorem isDigitCh_digCharAux (n : Nat) (h : n < 10) : isDigitCh (digCharAux n) = true := by
  rcases (by omega : n = 0 ∨ n = 1 ∨ n = 2 ∨ n = 3 ∨ n = 4 ∨ n = 5 ∨ n = 6 ∨ n = 7 ∨
    n = 8 ∨ n = 9) with h | h | h | h | h | h | h | h | h | h <;> subst h <;> decide

theorem isDigitCh_digChar (k : Nat) : isDigitCh (digChar k) = true :=
  isDigitCh_digCharAux _ (Nat.mod_lt _ (by decide))

theorem toLower_digCharAux_ne (n : Nat) (h : n < 10) :
    Char.toLower (digCharAux n) ≠ 't' := by
  rcases (by omega : n = 0 ∨ n = 1 ∨ n = 2 ∨ n = 3 ∨ n = 4 ∨ n = 5 ∨ n = 6 ∨ n = 7 ∨
    n = 8 ∨ n = 9) with h | h | h | h | h | h | h | h | h | h <;> subst h <;> decide

theorem toLower_digChar_ne (k : Nat) : Char.toLower (digChar k) ≠ 't' :=
  toLower_digCharAux_ne _ (Nat.mod_lt _ (by decide))

theorem pyIsSpace_digCharAux (n : Nat) (h : n < 10) : pyIsSpace (digCharAux n) = false := by
  rcases (by omega : n = 0 ∨ n = 1 ∨ n = 2 ∨ n = 3 ∨ n = 4 ∨ n = 5 ∨ n = 6 ∨ n = 7 ∨
    n = 8 ∨ n = 9) with h | h | h | h | h | h | h | h | h | h <;> subst h <;> decide

theorem pyIsSpace_digChar (k : Nat) : pyIsSpace (digChar k) = false :=
  pyIsSpace_digCharAux _ (Nat.mod_lt _ (by decide))

theorem valOf_pad2 (n : Nat) (h : n < 100) : valOf (pad2 n) = n := by
  simp [valOf, pad2, List.foldl, digitVal_digChar]
  omega

theorem valOf_pad4 (n : Nat) (h : n < 10000) : valOf (pad4 n) = n := by
  simp [valOf, pad4, List.foldl, digitVal_digChar]
  omega

theorem mem_pad2_digit (n : Nat) : ∀ c ∈ pad2 n, isDigitCh c = true := by
  intro c hc
  simp [pad2] at hc
  rcases hc with h | h <;> subst h <;> exact isDigitCh_digChar _

theorem mem_pad4_digit (n : Nat) : ∀ c ∈ pad4 n, isDigitCh c = true := by
  intro c hc
  simp [pad4] at hc
  rcases hc with h | h | h | h <;> subst h <;> exact isDigitCh_digChar _

theorem takeDigits_of_all (l : List Char) (h : ∀ c ∈ l, isDigitCh c = true) :
    takeDigits l = (l, []) := by
  induction l with
  | nil => rfl
  | cons a as ih =>
    have ha := h a (by simp)
    simp [takeDigits, ha, ih (fun c hc => h c (by simp [hc]))]

theorem takeDigits_append_not (xs : List Char) (y : Char) (r : List Char)
    (hx : ∀ c ∈ xs, isDigitCh c = true) (hy : isDigitCh y = false) :
    takeDigits (xs ++ y :: r) = (xs, y :: r) := by
  induction xs with
  | nil => simp [takeDigits, hy]
  | cons a as ih =>
    have ha := hx a (by simp)
    simp [takeDigits, ha, ih (fun c hc => hx c (by simp [hc]))]

theorem parseNum2_pad2 (lo hi n : Nat) (h1 : lo ≤ n) (h2 : n ≤ hi) (hn : n < 100)
    (y : Char) (r : List Char) (hy : isDigitCh y = false) :
    parseNum2 lo hi (pad2 n ++ y :: r) = some (n, y :: r) := by
  unfold parseNum2
  rw [takeDigits_append_not _ _ _ (mem_pad2_digit n) hy]
  simp only [valOf_pad2 n hn]
  simp [pad2, h1, h2]

theorem parseNum2_pad2_end (lo hi n : Nat) (h1 : lo ≤ n) (h2 : n ≤ hi) (hn : n < 100) :
    parseNum2 lo hi (pad2 n) = some (n, []) := by
  unfold parseNum2
  rw [takeDigits_of_all _ (mem_pad2_digit n)]
  simp only [valOf_pad2 n hn]
  simp [pad2, h1, h2]

theorem expectChar_same (c : Char) (r : List Char) : expectChar c (c :: r) = some r := by
  simp [expectChar]

theorem parseY4_pad4 (y : Nat) (hy : y < 10000) (rest : List Char) :
    parseY4 (pad4 y ++ rest) = some (y, rest) := by
  show parseY4 (digChar (y / 1000) :: digChar (y / 100) :: digChar (y / 10) ::
    digChar y :: rest) = some (y, rest)
  unfold parseY4
  simp [isDigitCh_digChar]
  have : valOf [digChar (y / 1000), digChar (y / 100), digChar (y / 10), digChar y]
      = valOf (pad4 y) := rfl
  rw [this, valOf_pad4 y hy]

theorem daysInMonth_le_31 (y m : Nat) : daysInMonth y m ≤ 31 := by
  unfold daysInMonth
  split <;> first | decide | (split <;> decide)

theorem pyStrptimeYMD_fmtDate (y m d : Nat) (hy1 : 1 ≤ y) (hy2 : y ≤ 9999)
    (hm1 : 1 ≤ m) (hm2 : m ≤ 12) (hd1 : 1 ≤ d) (hd2 : d ≤ daysInMonth y m) :
    pyStrptimeYMD (fmtDate y m d) = some (y, m, d) := by
  have hdata : (fmtDate y m d).data = pad4 y ++ '-' :: (pad2 m ++ '-' :: pad2 d) := rfl
  unfold pyStrptimeYMD
  rw [hdata, parseY4_pad4 y (by omega)]
  simp only [expectChar_same, parseNum2_pad2 1 12 m hm1 hm2 (by omega) '-' _ (by decide),
    parseNum2_pad2_end 1 31 d hd1 (le_trans hd2 (daysInMonth_le_31 y m)) (by have h31 := daysInMonth_le_31 y m; omega)]
  simp [hy1, hd2]

theorem pyStrptimeYMDHM_fmtDate (y m d : Nat) (hy1 : 1 ≤ y) (hy2 : y ≤ 9999)
    (hm1 : 1 ≤ m) (hm2 : m ≤ 12) (hd1 : 1 ≤ d) (hd2 : d ≤ daysInMonth y m) :
    pyStrptimeYMDHM (fmtDate y m d) = none := by
  have hdata : (fmtDate y m d).data = pad4 y ++ '-' :: (pad2 m ++ '-' :: pad2 d) := rfl
  unfold pyStrptimeYMDHM
  rw [hdata, parseY4_pad4 y (by omega)]
  simp only [expectChar_same, parseNum2_pad2 1 12 m hm1 hm2 (by omega) '-' _ (by decide),
    parseNum2_pad2_end 1 31 d hd1 (le_trans hd2 (daysInMonth_le_31 y m)) (by have h31 := daysInMonth_le_31 y m; omega)]
  simp [takeSpaces]

theorem pyStrptimeYMDHM_fmtDateTime (y m d h mi : Nat) (hy1 : 1 ≤ y) (hy2 : y ≤ 9999)
    (hm1 : 1 ≤ m) (hm2 : m ≤ 12) (hd1 : 1 ≤ d) (hd2 : d ≤ daysInMonth y m)
    (hh : h ≤ 23) (hmi : mi ≤ 59) :
    pyStrptimeYMDHM (fmtDateTime y m d h mi) = some (y, m, d, h, mi) := by
  have hdata : (fmtDateTime y m d h mi).data
      = pad4 y ++ '-' :: (pad2 m ++ '-' :: (pad2 d ++ ' ' :: (pad2 h ++ ':' :: pad2 mi))) := by
    simp [fmtDateTime, fmtDateChars]
  have hsp : takeSpaces (' ' :: (pad2 h ++ ':' :: pad2 mi))
      = ([' '], pad2 h ++ ':' :: pad2 mi) := by
    have hshape : pad2 h ++ ':' :: pad2 mi
        = digChar (h / 10) :: digChar h :: ':' :: pad2 mi := rfl
    rw [hshape]
    have hsptrue : pyIsSpace ' ' = true := by decide
    simp [takeSpaces, hsptrue, pyIsSpace_digChar]
  unfold pyStrptimeYMDHM
  rw [hdata, parseY4_pad4 y (by omega)]
  simp only [expectChar_same, parseNum2_pad2 1 12 m hm1 hm2 (by omega) '-' _ (by decide),
    parseNum2_pad2 1 31 d hd1 (le_trans hd2 (daysInMonth_le_31 y m)) (by have h31 := daysInMonth_le_31 y m; omega) ' ' _
      (by decide),
    hsp, parseNum2_pad2 0 23 h (Nat.zero_le h) hh (by omega) ':' _ (by decide),
    parseNum2_pad2_end 0 59 mi (Nat.zero_le mi) hmi (by omega)]
  simp [hy1, hd2]

theorem not_containsSub_of_not_mem (l : List Char) (p : Char) (ps : List Char)
    (h : p ∉ l) : containsSub l (p :: ps) = false := by
  induction l with
  | nil => rfl
  | cons c cs ih =>
    have hpc : p ≠ c := by
      intro he
      exact h (he ▸ List.mem_cons_self c cs)
    have hpcs : p ∉ cs := fun hm => h (List.mem_cons_of_mem c hm)
    simp [containsSub, List.isPrefixOf, ih hpcs, hpc]

theorem toLower_fmtDateChars_ne_t (y m d : Nat) :
    ∀ c ∈ fmtDateChars y m d, Char.toLower c ≠ 't' := by
  intro c hc
  simp [fmtDateChars, pad4, pad2] at hc
  rcases hc with h | h | h | h | h | h | h | h | h | h <;> subst h <;>
    first
    | exact toLower_digChar_ne _
    | decide

theorem toLower_fmtDateTimeChars_ne_t (y m d h mi : Nat) :
    ∀ c ∈ fmtDateChars y m d ++ ' ' :: pad2 h ++ ':' :: pad2 mi,
      Char.toLower c ≠ 't' := by
  intro c hc
  simp [fmtDateChars, pad4, pad2] at hc
  rcases hc with h | h | h | h | h | h | h | h | h | h | h | h | h | h | h | h <;>
    subst h <;>
    first
    | exact toLower_digChar_ne _
    | decide

theorem lower_fmtDate_no_t (y m d : Nat) : 't' ∉ (lowerStr (fmtDate y m d)).data := by
  intro hmem
  have hdata : (lowerStr (fmtDate y m d)).data = (fmtDateChars y m d).map Char.toLower := rfl
  rw [hdata] at hmem
  rcases List.mem_map.mp hmem with ⟨c, hc, he⟩
  exact toLower_fmtDateChars_ne_t y m d c hc he

theorem lower_fmtDateTime_no_t (y m d h mi : Nat) :
    't' ∉ (lowerStr (fmtDateTime y m d h mi)).data := by
  intro hmem
  have hdata : (lowerStr (fmtDateTime y m d h mi)).data
      = (fmtDateChars y m d ++ ' ' :: pad2 h ++ ':' :: pad2 mi).map Char.toLower := rfl
  rw [hdata] at hmem
  rcases List.mem_map.mp hmem with ⟨c, hc, he⟩
  exact toLower_fmtDateTimeChars_ne_t y m d h mi c hc he

theorem no_t_contains_false (s : String) (h : 't' ∉ (lowerStr s).data) :
    strContainsSub (lowerStr s) "today" = false ∧
    strContainsSub (lowerStr s) "tomorrow" = false := by
  constructor
  · unfold strContainsSub
    rw [show ("today" : String).data = 't' :: ['o', 'd', 'a', 'y'] from rfl]
    exact not_containsSub_of_not_mem _ _ _ h
  · unfold strContainsSub
    rw [show ("tomorrow" : String).data = 't' :: ['o', 'm', 'o', 'r', 'r', 'o', 'w'] from rfl]
    exact not_containsSub_of_not_mem _ _ _ h

theorem fmtDate_ne_empty (y m d : Nat) : fmtDate y m d ≠ "" := by
  intro he
  have h2 := congrArg String.data he
  rw [show (fmtDate y m d).data = fmtDateChars y m d from rfl,
    show ("" : String).data = [] from rfl] at h2
  simp [fmtDateChars, pad4] at h2

theorem fmtDateTime_ne_empty (y m d h mi : Nat) : fmtDateTime y m d h mi ≠ "" := by
  intro he
  have h2 := congrArg String.data he
  rw [show (fmtDateTime y m d h mi).data
      = fmtDateChars y m d ++ ' ' :: pad2 h ++ ':' :: pad2 mi from rfl,
    show ("" : String).data = [] from rfl] at h2
  simp [fmtDateChars, pad4] at h2

/-! ## Claim C1 -/

/-- Claim C1, counterexample: the input `"2025-7-8"` is non-empty, contains
neither `"today"` nor `"tomorrow"`, and matches neither `YYYY-MM-DD HH:MM`
nor `YYYY-MM-DD` exactly, so the claim says the normalizer signals failure
(returns none); but `parse_relative_due_date` accepts it through Python's
lenient `strptime` and returns the reformatted `"2025-07-08 23:59"`. -/
theorem claim_c1_counterexample :
    ("2025-7-8" : String) ≠ "" ∧
    strContainsSub (lowerStr "2025-7-8") "today" = false ∧
    strContainsSub (lowerStr "2025-7-8") "tomorrow" = false ∧
    specCanonYMDHM "2025-7-8" = false ∧
    specCanonYMD "2025-7-8" = false ∧
    parse_relative_due_date ⟨2026, 1, 1⟩ "2025-7-8" = some "2025-07-08 23:59" := by
  decide

/-- Claim C1, amended: the date normalizer behaves as claimed on the
today/tomorrow/canonical/empty cases — in particular a string that is
exactly canonical `YYYY-MM-DD HH:MM` (the image of `strftime`, i.e.
`fmtDateTime` of an in-range time on a valid date) is returned unchanged,
and exactly canonical `YYYY-MM-DD` gets `" 23:59"` appended — but inputs
accepted by Python's lenient `strptime` (unpadded fields, flexible
whitespace) are not rejected: they are re-rendered in canonical
zero-padded form.  All remaining non-empty inputs yield none. -/
theorem claim_c1_amended :
    (∀ today : PyDate, parse_relative_due_date today "" = none) ∧
    (∀ (today : PyDate) (s : String), s ≠ "" →
      strContainsSub (lowerStr s) "today" = true →
      parse_relative_due_date today s
        = some (fmtDate today.year today.month today.day ++ " 23:59")) ∧
    (∀ (today : PyDate) (s : String), s ≠ "" →
      strContainsSub (lowerStr s) "today" = false →
      strContainsSub (lowerStr s) "tomorrow" = true →
      parse_relative_due_date today s
        = some (fmtDate (nextDate today).year (nextDate today).month
            (nextDate today).day ++ " 23:59")) ∧
    (∀ (today : PyDate) (y m d h mi : Nat), 1 ≤ y → y ≤ 9999 → 1 ≤ m → m ≤ 12 →
      1 ≤ d → d ≤ daysInMonth y m → h ≤ 23 → mi ≤ 59 →
      parse_relative_due_date today (fmtDateTime y m d h mi)
        = some (fmtDateTime y m d h mi)) ∧
    (∀ (today : PyDate) (y m d : Nat), 1 ≤ y → y ≤ 9999 → 1 ≤ m → m ≤ 12 →
      1 ≤ d → d ≤ daysInMonth y m →
      parse_relative_due_date today (fmtDate y m d)
        = some (fmtDate y m d ++ " 23:59")) ∧
    (∀ (today : PyDate) (s : String) (y m d h mi : Nat), s ≠ "" →
      strContainsSub (lowerStr s) "today" = false →
      strContainsSub (lowerStr s) "tomorrow" = false →
      pyStrptimeYMDHM s = some (y, m, d, h, mi) →
      parse_relative_due_date today s = some (fmtDateTime y m d h mi)) ∧
    (∀ (today : PyDate) (s : String) (y m d : Nat), s ≠ "" →
      strContainsSub (lowerStr s) "today" = false →
      strContainsSub (lowerStr s) "tomorrow" = false →
      pyStrptimeYMDHM s = none → pyStrptimeYMD s = some (y, m, d) →
      parse_relative_due_date today s = some (fmtDate y m d ++ " 23:59")) ∧
    (∀ (today : PyDate) (s : String), s ≠ "" →
      strContainsSub (lowerStr s) "today" = false →
      strContainsSub (lowerStr s) "tomorrow" = false →
      pyStrptimeYMDHM s = none → pyStrptimeYMD s = none →
      parse_relative_due_date today s = none) := by
  refine ⟨?_, ?_, ?_, ?_, ?_, ?_, ?_, ?_⟩
  · intro today
    rfl
  · intro today s hne hc
    simp [parse_relative_due_date, beq_eq_false_iff_ne.mpr hne, hc]
  · intro today s hne hc1 hc2
    simp [parse_relative_due_date, beq_eq_false_iff_ne.mpr hne, hc1, hc2]
  · intro today y m d h mi hy1 hy2 hm1 hm2 hd1 hd2 hh hmi
    have hne := fmtDateTime_ne_empty y m d h mi
    have hct := no_t_contains_false _ (lower_fmtDateTime_no_t y m d h mi)
    simp [parse_relative_due_date, beq_eq_false_iff_ne.mpr hne, hct.1, hct.2,
      pyStrptimeYMDHM_fmtDateTime y m d h mi hy1 hy2 hm1 hm2 hd1 hd2 hh hmi]
  · intro today y m d hy1 hy2 hm1 hm2 hd1 hd2
    have hne := fmtDate_ne_empty y m d
    have hct := no_t_contains_false _ (lower_fmtDate_no_t y m d)
    simp [parse_relative_due_date, beq_eq_false_iff_ne.mpr hne, hct.1, hct.2,
      pyStrptimeYMDHM_fmtDate y m d hy1 hy2 hm1 hm2 hd1 hd2,
      pyStrptimeYMD_fmtDate y m d hy1 hy2 hm1 hm2 hd1 hd2]
  · intro today s y m d h mi hne hc1 hc2 hp
    simp [parse_relative_due_date, beq_eq_false_iff_ne.mpr hne, hc1, hc2, hp]
  · intro today s y m d hne hc1 hc2 hp1 hp2
    simp [parse_relative_due_date, beq_eq_false_iff_ne.mpr hne, hc1, hc2, hp1, hp2]
  · intro today s hne hc1 hc2 hp1 hp2
    simp [parse_relative_due_date, beq_eq_false_iff_ne.mpr hne, hc1, hc2, hp1, hp2]

/-- Witness for Claim C1's amended theorem at concrete inputs: a canonical
`YYYY-MM-DD HH:MM` string is returned unchanged, and a canonical
`YYYY-MM-DD` string gets `" 23:59"` appended. -/
theorem claim_c1_witness :
    parse_relative_due_date ⟨2025, 10, 12⟩ "2025-07-08 10:00" = some "2025-07-08 10:00" ∧
    parse_relative_due_date ⟨2025, 10, 12⟩ "2025-07-08" = some "2025-07-08 23:59" := by
  constructor
  · have h := claim_c1_amended.2.2.2.1 ⟨2025, 10, 12⟩ 2025 7 8 10 0 (by decide) (by decide)
      (by decide) (by decide) (by decide) (by decide) (by decide) (by decide)
    have he : fmtDateTime 2025 7 8 10 0 = "2025-07-08 10:00" := by decide
    rw [he] at h
    exact h
  · have h := claim_c1_amended.2.2.2.2.1 ⟨2025, 10, 12⟩ 2025 7 8 (by decide) (by decide)
      (by decide) (by decide) (by decide) (by decide)
    have he : fmtDate 2025 7 8 = "2025-07-08" := by decide
    rw [he] at h
    exact h

/-! ## Claim C2 -/

theorem dateRangeKeep_next7 (todayOrd : Nat) (t : Row) :
    dateRangeKeep todayOrd "next_seven_days" t
      = (match pyStrptimeYMD (datePortion t.due_date) with
         | none => false
         | some (y, m, d) =>
           todayOrd ≤ toOrdinal y m d && toOrdinal y m d < todayOrd + 7) := by
  unfold dateRangeKeep
  by_cases hd : t.due_date = ""
  · rw [hd]
    have h0 : pyStrptimeYMD (datePortion "") = none := rfl
    simp [h0]
  · have hbe : (t.due_date == "") = false := beq_eq_false_iff_ne.mpr hd
    simp only [hbe, Bool.false_eq_true, if_false]
    cases hp : pyStrptimeYMD (datePortion t.due_date) with
    | none => simp
    | some v =>
      obtain ⟨y, m, d⟩ := v
      simp

/-- Claim C2: with the `next_seven_days` filter active and the pending
status filter (as passed by both the list handler and the reminder
scanner), `read_tasks` returns exactly the records whose status is
`pending`, that pass any active assignee filter by exact string equality
against the stored `assignee_id`, and whose due-date's date portion
parses as `%Y-%m-%d` to a date `d` with `today ≤ d < today + 7`; records
with an empty or unparsable `due_date` are silently dropped, and
completed records never pass the status test. -/
theorem claim_c2_next_seven_days_filter (rows : List Row) (af : Option String)
    (todayOrd : Nat) :
    read_tasks rows af (some "next_seven_days") (some STATUS_PENDING) todayOrd
      = rows.filter (fun t =>
          t.status == STATUS_PENDING &&
          (!truthy af || t.assignee_id == af.getD "") &&
          (match pyStrptimeYMD (datePortion t.due_date) with
           | none => false
           | some (y, m, d) =>
             todayOrd ≤ toOrdinal y m d && toOrdinal y m d < todayOrd + 7)) := by
  unfold read_tasks
  have h1 : truthy (some STATUS_PENDING) = true := by decide
  have h2 : truthy (some "next_seven_days") = true := by decide
  have hgd : (some "next_seven_days").getD "" = "next_seven_days" := rfl
  rw [h1, h2, hgd]
  simp only [eq_self_iff_true, if_true]
  cases haf : truthy af with
  | true =>
    simp only [haf, if_true]
    rw [List.filter_filter, List.filter_filter]
    apply List.filter_congr
    intro t _
    rw [dateRangeKeep_next7]
    cases hp : pyStrptimeYMD (datePortion t.due_date) with
    | none => simp
    | some v =>
      obtain ⟨y, m, d⟩ := v
      simp
      cases t.status == STATUS_PENDING <;>
        cases t.assignee_id == af.getD "" <;> simp
  | false =>
    simp only [haf, Bool.false_eq_true, if_false]
    rw [List.filter_filter]
    apply List.filter_congr
    intro t _
    rw [dateRangeKeep_next7]
    cases hp : pyStrptimeYMD (datePortion t.due_date) with
    | none => simp
    | some v =>
      obtain ⟨y, m, d⟩ := v
      simp
      cases t.status == STATUS_PENDING <;> simp

/-! ## Claim C3 -/

theorem due_beq_empty_false_of_parse (t : Row) (v : Nat × Nat × Nat)
    (hp : pyStrptimeYMD (datePortion t.due_date) = some v) :
    (t.due_date == "") = false := by
  cases hd : t.due_date == "" with
  | false => rfl
  | true =>
    have he : t.due_date = "" := by
      have := (beq_iff_eq).mp hd
      exact this
    rw [he] at hp
    have h0 : pyStrptimeYMD (datePortion "") = none := rfl
    rw [h0] at hp
    cases hp

theorem bucketize_eq_filters (todayOrd : Nat) (l : List Row) :
    bucketize todayOrd l
      = (l.filter (fun t =>
           if t.due_date == "" then false
           else
             match pyStrptimeYMD (datePortion t.due_date) with
             | none => false
             | some (y, m, d) => toOrdinal y m d == todayOrd),
         l.filter (fun t =>
           if t.due_date == "" then false
           else
             match pyStrptimeYMD (datePortion t.due_date) with
             | none => false
             | some (y, m, d) =>
               !(toOrdinal y m d == todayOrd) && (toOrdinal y m d == todayOrd + 1)),
         l.filter (fun t =>
           if t.due_date == "" then false
           else
             match pyStrptimeYMD (datePortion t.due_date) with
             | none => false
             | some (y, m, d) =>
               !(toOrdinal y m d == todayOrd) && !(toOrdinal y m d == todayOrd + 1) &&
               (todayOrd < toOrdinal y m d && toOrdinal y m d < todayOrd + 7))) := by
  induction l with
  | nil => rfl
  | cons x xs ih =>
    simp only [bucketize, ih, List.filter_cons]
    by_cases hx : x.due_date = ""
    · have hbe : (x.due_date == "") = true := by simp [hx]
      simp [hbe]
    · have hbe : (x.due_date == "") = false := beq_eq_false_iff_ne.mpr hx
      simp only [hbe, Bool.false_eq_true, if_false]
      cases hp : pyStrptimeYMD (datePortion x.due_date) with
      | none => simp [hp]
      | some v =>
        obtain ⟨y, m, d⟩ := v
        simp only [hp]
        by_cases h1 : toOrdinal y m d = todayOrd
        · have hb1 : (toOrdinal y m d == todayOrd) = true := by simp [h1]
          simp [hb1]
        · have hb1 : (toOrdinal y m d == todayOrd) = false := by simp [h1]
          simp only [hb1, Bool.false_eq_true, if_false, Bool.not_false, Bool.true_and]
          by_cases h2 : toOrdinal y m d = todayOrd + 1
          · have hb2 : (toOrdinal y m d == todayOrd + 1) = true := by simp [h2]
            simp [hb2]
          · have hb2 : (toOrdinal y m d == todayOrd + 1) = false := by simp [h2]
            simp only [hb2, Bool.false_eq_true, if_false, Bool.not_false, Bool.true_and]
            by_cases h3 : todayOrd < toOrdinal y m d ∧ toOrdinal y m d < todayOrd + 7
            · have hb3 : (decide (todayOrd < toOrdinal y m d) &&
                  decide (toOrdinal y m d < todayOrd + 7)) = true := by
                simp [h3.1, h3.2]
              simp [hb3]
            · have hb3 : (decide (todayOrd < toOrdinal y m d) &&
                  decide (toOrdinal y m d < todayOrd + 7)) = false := by
                by_cases hA : todayOrd < toOrdinal y m d
                · by_cases hB : toOrdinal y m d < todayOrd + 7
                  · exact absurd ⟨hA, hB⟩ h3
                  · simp [hB]
                · simp [hA]
              simp [hb3]

theorem bucketize_char (todayOrd : Nat) (l : List Row) (t : Row) (y m d : Nat)
    (hmem : t ∈ l) (hp : pyStrptimeYMD (datePortion t.due_date) = some (y, m, d)) :
    (t ∈ (bucketize todayOrd l).1 ↔ toOrdinal y m d = todayOrd) ∧
    (t ∈ (bucketize todayOrd l).2.1 ↔ toOrdinal y m d = todayOrd + 1) ∧
    (t ∈ (bucketize todayOrd l).2.2 ↔
      (todayOrd + 1 < toOrdinal y m d ∧ toOrdinal y m d < todayOrd + 7)) := by
  have hbe := due_beq_empty_false_of_parse t (y, m, d) hp
  rw [bucketize_eq_filters]
  refine ⟨?_, ?_, ?_⟩
  · simp only [List.mem_filter, hbe, Bool.false_eq_true, if_false, hp]
    constructor
    · intro h
      have := h.2
      simpa using this
    · intro h
      exact ⟨hmem, by simpa using h⟩
  · simp only [List.mem_filter, hbe, Bool.false_eq_true, if_false, hp]
    constructor
    · intro h
      have h2 := h.2
      simp at h2
      exact h2.2
    · intro h
      refine ⟨hmem, ?_⟩
      simp [h]
  · simp only [List.mem_filter, hbe, Bool.false_eq_true, if_false, hp]
    constructor
    · intro h
      have h2 := h.2
      simp at h2
      omega
    · intro h
      refine ⟨hmem, ?_⟩
      simp
      omega

/-- Claim C3: a pending task with a parseable due date processed by the
reminder scanner (i.e. an element of the `next_seven_days` pending read)
lands in the due-today bucket iff its date equals today, in the
due-tomorrow bucket iff it equals today+1, and in the upcoming bucket iff
today+1 < date < today+7 — hence in exactly one bucket, and a task due
today is never in the upcoming bucket.  A task whose date is exactly
today+7 is placed in no bucket at all, whatever list it arrives in. -/
theorem claim_c3_reminder_buckets :
    (∀ (todayOrd : Nat) (rows : List Row) (t : Row) (y m d : Nat),
      t ∈ read_tasks rows none (some "next_seven_days") (some STATUS_PENDING) todayOrd →
      pyStrptimeYMD (datePortion t.due_date) = some (y, m, d) →
      ((t ∈ (bucketize todayOrd (read_tasks rows none (some "next_seven_days")
            (some STATUS_PENDING) todayOrd)).1 ↔ toOrdinal y m d = todayOrd) ∧
       (t ∈ (bucketize todayOrd (read_tasks rows none (some "next_seven_days")
            (some STATUS_PENDING) todayOrd)).2.1 ↔ toOrdinal y m d = todayOrd + 1) ∧
       (t ∈ (bucketize todayOrd (read_tasks rows none (some "next_seven_days")
            (some STATUS_PENDING) todayOrd)).2.2 ↔
          (todayOrd + 1 < toOrdinal y m d ∧ toOrdinal y m d < todayOrd + 7)) ∧
       (toOrdinal y m d = todayOrd →
          t ∉ (bucketize todayOrd (read_tasks rows none (some "next_seven_days")
            (some STATUS_PENDING) todayOrd)).2.2))) ∧
    (∀ (todayOrd : Nat) (l : List Row) (t : Row) (y m d : Nat),
      t ∈ l → pyStrptimeYMD (datePortion t.due_date) = some (y, m, d) →
      toOrdinal y m d = todayOrd + 7 →
      t ∉ (bucketize todayOrd l).1 ∧ t ∉ (bucketize todayOrd l).2.1 ∧
      t ∉ (bucketize todayOrd l).2.2) := by
  constructor
  · intro todayOrd rows t y m d hmem hp
    obtain ⟨h1, h2, h3⟩ := bucketize_char todayOrd _ t y m d hmem hp
    refine ⟨h1, h2, h3, ?_⟩
    intro he hin
    have := h3.mp hin
    omega
  · intro todayOrd l t y m d hmem hp h7
    obtain ⟨h1, h2, h3⟩ := bucketize_char todayOrd l t y m d hmem hp
    refine ⟨?_, ?_, ?_⟩
    · intro hin
      have := h1.mp hin
      omega
    · intro hin
      have := h2.mp hin
      omega
    · intro hin
      have := h3.mp hin
      omega

/-- Witness for Claim C3 at a concrete store: today is 2025-10-12; a
pending task due today lands in the due-today bucket and not in the
upcoming bucket, and a task due 2025-10-19 (today+7) is in no bucket of
any bucketized list. -/
theorem claim_c3_witness :
    (⟨"1", "a", "pending", "", "2025-10-12", "c"⟩ : Row) ∈
      (bucketize 739536 (read_tasks
        [⟨"1", "a", "pending", "", "2025-10-12", "c"⟩,
         ⟨"2", "b", "pending", "", "2025-10-15", "c"⟩]
        none (some "next_seven_days") (some STATUS_PENDING) 739536)).1 ∧
    (⟨"1", "a", "pending", "", "2025-10-12", "c"⟩ : Row) ∉
      (bucketize 739536 (read_tasks
        [⟨"1", "a", "pending", "", "2025-10-12", "c"⟩,
         ⟨"2", "b", "pending", "", "2025-10-15", "c"⟩]
        none (some "next_seven_days") (some STATUS_PENDING) 739536)).2.2 ∧
    (⟨"3", "z", "pending", "", "2025-10-19", "c"⟩ : Row) ∉
      (bucketize 739536 [⟨"3", "z", "pending", "", "2025-10-19", "c"⟩]).1 := by
  have h1 := claim_c3_reminder_buckets.1 739536
    [⟨"1", "a", "pending", "", "2025-10-12", "c"⟩,
     ⟨"2", "b", "pending", "", "2025-10-15", "c"⟩]
    ⟨"1", "a", "pending", "", "2025-10-12", "c"⟩ 2025 10 12 (by decide) (by decide)
  have h2 := claim_c3_reminder_buckets.2 739536
    [⟨"3", "z", "pending", "", "2025-10-19", "c"⟩]
    ⟨"3", "z", "pending", "", "2025-10-19", "c"⟩ 2025 10 19 (by decide) (by decide)
    (by decide)
  exact ⟨h1.1.mpr (by decide), h1.2.2.2 (by decide), h2.1⟩

/-! ## Claim C4 -/

/-- Claim C4: on every non-empty due-date string rejected by the
normalizer, the Add handler (bot.py:296-306) and the Update handler
(bot.py:472-478) apply the same fallback: a string with no `':'` and
exactly 10 characters gets `" 23:59"` appended; any other string is
passed through to the store unchanged and unvalidated. -/
theorem claim_c4_fallback (today : PyDate) (s : String) (hne : s ≠ "")
    (hfail : parse_relative_due_date today s = none) :
    addTaskDueFallback today s = updateTaskDueFallback today s ∧
    (s.data.contains ':' = false → s.length = 10 →
      addTaskDueFallback today s = s ++ " 23:59" ∧
      updateTaskDueFallback today s = s ++ " 23:59") ∧
    (s.data.contains ':' = true ∨ s.length ≠ 10 →
      addTaskDueFallback today s = s ∧ updateTaskDueFallback today s = s) := by
  refine ⟨?_, ?_, ?_⟩
  · unfold addTaskDueFallback updateTaskDueFallback
    rw [hfail]
  · intro hc hl
    unfold addTaskDueFallback updateTaskDueFallback
    rw [hfail]
    have hcond : (!(s.data.contains ':') && s.length == 10) = true := by
      rw [hc, hl]
      decide
    rw [hcond]
    simp
  · intro hor
    unfold addTaskDueFallback updateTaskDueFallback
    rw [hfail]
    rcases hor with hc | hl
    · have hcond : (!(s.data.contains ':') && s.length == 10) = false := by
        rw [hc]
        rfl
      rw [hcond]
      simp
    · have hc2 : (s.length == 10) = false := by simp [hl]
      rw [hc2]
      simp

/-- Witness for Claim C4: `"not-a-date"` is rejected by the normalizer,
has 10 characters and no colon, so both handlers store
`"not-a-date 23:59"`; `"soon!"` is rejected and passed through as-is. -/
theorem claim_c4_witness :
    addTaskDueFallback ⟨2025, 10, 12⟩ "not-a-date" = "not-a-date 23:59" ∧
    updateTaskDueFallback ⟨2025, 10, 12⟩ "not-a-date" = "not-a-date 23:59" ∧
    addTaskDueFallback ⟨2025, 10, 12⟩ "soon!" = "soon!" := by
  have h1 := claim_c4_fallback ⟨2025, 10, 12⟩ "not-a-date" (by decide) (by decide)
  have h2 := claim_c4_fallback ⟨2025, 10, 12⟩ "soon!" (by decide) (by decide)
  obtain ⟨ha, hb⟩ := h1.2.1 (by decide) (by decide)
  exact ⟨ha, hb, (h2.2.2 (by right; decide)).1⟩

/-! ## Claim C5 -/

/-- Claim C5: when the Complete handler resolves by title it scans only
pending records (the pending read is exactly the pending filter) for an
exact case-insensitive title match; with zero matches it reports
not-found and stops; with exactly one match it marks that record's id
complete; with more than one match it reports ambiguity listing all
matching ids and changes no record. -/
theorem claim_c5_complete_by_title (rows : List Row) (ttl : String)
    (todayOrd : Nat) (hne : ttl ≠ "") :
    read_tasks rows none none (some STATUS_PENDING) todayOrd
      = rows.filter (fun r => r.status == STATUS_PENDING) ∧
    ((read_tasks rows none none (some STATUS_PENDING) todayOrd).filter
        (fun r => lowerStr r.title == lowerStr ttl) = [] →
      handle_complete_task rows ⟨none, some ttl⟩ todayOrd
        = (rows, CompleteReply.titleNotFound)) ∧
    (∀ r, (read_tasks rows none none (some STATUS_PENDING) todayOrd).filter
        (fun r => lowerStr r.title == lowerStr ttl) = [r] →
      ∀ n, strToNatDigits r.task_id = some n →
      handle_complete_task rows ⟨none, some ttl⟩ todayOrd
        = ((mark_task_complete rows (Int.ofNat n)).1,
           if (mark_task_complete rows (Int.ofNat n)).2 then
             CompleteReply.completedOk (Int.ofNat n)
           else CompleteReply.completeFailed (Int.ofNat n))) ∧
    (((read_tasks rows none none (some STATUS_PENDING) todayOrd).filter
        (fun r => lowerStr r.title == lowerStr ttl)).length > 1 →
      handle_complete_task rows ⟨none, some ttl⟩ todayOrd
        = (rows, CompleteReply.ambiguousTitle
            (((read_tasks rows none none (some STATUS_PENDING) todayOrd).filter
              (fun r => lowerStr r.title == lowerStr ttl)).map
              (fun r => numericiseId r.task_id)))) := by
  have hbne : (ttl == "") = false := beq_eq_false_iff_ne.mpr hne
  have hread : read_tasks rows none none (some STATUS_PENDING) todayOrd
      = rows.filter (fun r => r.status == STATUS_PENDING) := by
    unfold read_tasks
    have h1 : truthy (some STATUS_PENDING) = true := by decide
    have h2 : truthy (none : Option String) = false := by decide
    simp [h1, h2]
  refine ⟨hread, ?_, ?_, ?_⟩
  · intro hempty
    unfold handle_complete_task
    simp only [hbne, Bool.false_eq_true, if_false, hempty]
    rfl
  · intro r hone n hn
    unfold handle_complete_task
    simp only [hbne, Bool.false_eq_true, if_false, hone]
    simp [hn, runMark]
    split <;> simp_all
  · intro hmany
    unfold handle_complete_task
    simp only [hbne, Bool.false_eq_true, if_false]
    have hlen1 : (((read_tasks rows none none (some STATUS_PENDING) todayOrd).filter
        (fun r => lowerStr r.title == lowerStr ttl)).length == 1) = false := by
      simp
      omega
    have hlen2 : (((read_tasks rows none none (some STATUS_PENDING) todayOrd).filter
        (fun r => lowerStr r.title == lowerStr ttl)).length > 1) = True := by
      simp [hmany]
    simp only [hlen1, Bool.false_eq_true, if_false]
    simp [hmany]

/-- Witness for Claim C5, the spec's own scenario: two pending tasks
titled "Report"/"report" — complete-by-title reports ambiguity listing
ids 1 and 2 and performs no status change on either. -/
theorem claim_c5_witness :
    handle_complete_task
      [⟨"1", "Report", "pending", "", "", "c1"⟩,
       ⟨"2", "report", "pending", "", "", "c2"⟩]
      ⟨none, some "Report"⟩ 0
      = ([⟨"1", "Report", "pending", "", "", "c1"⟩,
          ⟨"2", "report", "pending", "", "", "c2"⟩],
         CompleteReply.ambiguousTitle ["1", "2"]) := by
  have h := (claim_c5_complete_by_title
    [⟨"1", "Report", "pending", "", "", "c1"⟩,
     ⟨"2", "report", "pending", "", "", "c2"⟩]
    "Report" 0 (by decide)).2.2.2 (by decide)
  rw [h]
  decide

/-! ## Claim C6 -/

/-- Claim C6 is violated by the code (code bug): an Update call whose
argument mapping supplies only `new_assignee = ""` (plus the target id)
is supposed to clear the assignee, but the truthiness guard at
bot.py:466 (`if not any([new_title, new_due_date_str, new_assignee_str])`)
treats the empty string as "nothing provided", so the handler replies
with the "Please specify what you want to update" prompt and performs no
store write: the record keeps assignee `"alice"`.  The key-presence
clearing logic at bot.py:482-503, which the code's own comments describe,
is unreachable on this input. -/
theorem claim_c6_code_bug :
    handle_update_task ⟨2025, 7, 8⟩ []
      [⟨"1", "Write report", "pending", "alice", "2025-07-08 23:59",
        "2025-07-01 09:00:00"⟩]
      ⟨some "1", none, none, some ""⟩
      = ([⟨"1", "Write report", "pending", "alice", "2025-07-08 23:59",
           "2025-07-01 09:00:00"⟩],
         UpdateReply.promptNoFields) := by
  decide

/-! ## Claim C7 -/

theorem mem_foldl_max (a : Nat) (l : List Nat) : l.foldl Nat.max a ∈ a :: l := by
  induction l generalizing a with
  | nil => simp [List.foldl]
  | cons x xs ih =>
    have h := ih (Nat.max a x)
    rcases List.mem_cons.mp h with h1 | h1
    · rcases Nat.le_total a x with hax | hax
      · have hm : Nat.max a x = x := max_eq_right hax
        simp only [List.foldl]
        rw [h1, hm]
        exact List.mem_cons_of_mem _ (List.mem_cons_self _ _)
      · have hm : Nat.max a x = a := max_eq_left hax
        simp only [List.foldl]
        rw [h1, hm]
        exact List.mem_cons_self _ _
    · simp only [List.foldl]
      exact List.mem_cons_of_mem _ (List.mem_cons_of_mem _ h1)

theorem le_foldl_max_init (a : Nat) (l : List Nat) : a ≤ l.foldl Nat.max a := by
  induction l generalizing a with
  | nil => exact Nat.le_refl a
  | cons x xs ih =>
    simp only [List.foldl]
    exact Nat.le_trans (Nat.le_max_left a x) (ih (Nat.max a x))

theorem le_foldl_max_mem (l : List Nat) (x : Nat) (hx : x ∈ l) (a : Nat) :
    x ≤ l.foldl Nat.max a := by
  induction l generalizing a with
  | nil => cases hx
  | cons y ys ih =>
    simp only [List.foldl]
    rcases List.mem_cons.mp hx with h1 | h1
    · subst h1
      exact Nat.le_trans (Nat.le_max_right a x) (le_foldl_max_init _ ys)
    · exact ih h1 _

/-- Claim C7: the id assigned by Add is `max(existing numeric ids) + 1`
(1 when the store has no task rows), and the appended record has status
`pending` and carries that id. -/
theorem claim_c7_next_id (rows : List Row) (title : String) (a due : Option String)
    (ca : String) :
    (∃ r, (add_task rows title a due ca).1 = rows ++ [r] ∧
       r.status = STATUS_PENDING ∧ r.title = title ∧
       r.task_id = toString ((add_task rows title a due ca).2)) ∧
    (rows = [] → (add_task rows title a due ca).2 = 1) ∧
    (rows.filterMap (fun r => strToNatDigits r.task_id) ≠ [] →
      ∃ mx, mx ∈ rows.filterMap (fun r => strToNatDigits r.task_id) ∧
        (∀ x ∈ rows.filterMap (fun r => strToNatDigits r.task_id), x ≤ mx) ∧
        (add_task rows title a due ca).2 = mx + 1) := by
  refine ⟨⟨⟨toString (get_next_task_id rows), title, STATUS_PENDING, a.getD "",
    due.getD "", ca⟩, rfl, rfl, rfl, rfl⟩, ?_, ?_⟩
  · intro h
    subst h
    rfl
  · intro hne
    have hfm : (rows.map (fun r => r.task_id)).filterMap strToNatDigits
        = rows.filterMap (fun r => strToNatDigits r.task_id) := by
      rw [List.filterMap_map]
      rfl
    refine ⟨(rows.filterMap (fun r => strToNatDigits r.task_id)).foldl Nat.max 0,
      ?_, ?_, ?_⟩
    · have hmem := mem_foldl_max 0 (rows.filterMap (fun r => strToNatDigits r.task_id))
      rcases List.mem_cons.mp hmem with h0 | h1
      · cases hl : rows.filterMap (fun r => strToNatDigits r.task_id) with
        | nil => exact absurd hl hne
        | cons e es =>
          rw [hl] at h0
          have he : e ≤ List.foldl Nat.max 0 (e :: es) :=
            le_foldl_max_mem _ e (List.mem_cons_self _ _) 0
          rw [h0] at he
          have he0 : e = 0 := Nat.le_zero.mp he
          rw [h0, he0]
          exact List.mem_cons_self _ _
      · exact h1
    · intro x hx
      exact le_foldl_max_mem _ x hx 0
    · show get_next_task_id rows
        = (rows.filterMap (fun r => strToNatDigits r.task_id)).foldl Nat.max 0 + 1
      have hrows : rows ≠ [] := by
        intro h
        subst h
        exact hne rfl
      unfold get_next_task_id
      have hlen : ¬ (("task_id" :: rows.map (fun r => r.task_id)).length ≤ 1) := by
        intro hle
        simp only [List.length_cons, List.length_map] at hle
        have h0 : rows.length = 0 := by omega
        exact hrows (List.eq_nil_of_length_eq_zero h0)
      rw [if_neg hlen]
      have hdrop : ("task_id" :: rows.map (fun r => r.task_id)).drop 1
          = rows.map (fun r => r.task_id) := rfl
      rw [hdrop, hfm]
      have hni : (rows.filterMap (fun r => strToNatDigits r.task_id)).isEmpty = false := by
        cases hl : rows.filterMap (fun r => strToNatDigits r.task_id) with
        | nil => exact absurd hl hne
        | cons e es => rfl
      simp only [hni, Bool.false_eq_true, if_false]

/-- Witness for Claim C7: adding to an empty store assigns id 1 and
appends a pending record. -/
theorem claim_c7_witness :
    (add_task [] "Buy milk" none (some "2025-07-08 23:59") "t0").2 = 1 ∧
    ∃ r, (add_task [] "Buy milk" none (some "2025-07-08 23:59") "t0").1 = [] ++ [r] ∧
      r.status = STATUS_PENDING := by
  have h := claim_c7_next_id [] "Buy milk" none (some "2025-07-08 23:59") "t0"
  obtain ⟨r, h1, h2, _, _⟩ := h.1
  exact ⟨h.2.1 rfl, r, h1, h2⟩

/-! ## Claim C8 -/

theorem applyUpdAt_getElem (nt na nd : Option String) (l : List Row) (i j : Nat) :
    (applyUpdAt nt na nd l i)[j]?
      = if j = i then (l[j]?).map (applyUpd nt na nd) else l[j]? := by
  induction l generalizing i j with
  | nil => simp [applyUpdAt]
  | cons r rs ih =>
    cases i with
    | zero =>
      cases j with
      | zero => simp [applyUpdAt]
      | succ jj => simp [applyUpdAt]
    | succ ii =>
      cases j with
      | zero => simp [applyUpdAt]
      | succ jj => simp [applyUpdAt, ih]

theorem setStatusAt_getElem (st : String) (l : List Row) (i j : Nat) :
    (setStatusAt st l i)[j]?
      = if j = i then (l[j]?).map (fun r => { r with status := st }) else l[j]? := by
  induction l generalizing i j with
  | nil => simp [setStatusAt]
  | cons r rs ih =>
    cases i with
    | zero =>
      cases j with
      | zero => simp [setStatusAt]
      | succ jj => simp [setStatusAt]
    | succ ii =>
      cases j with
      | zero => simp [setStatusAt]
      | succ jj => simp [setStatusAt, ih]

theorem findRowIdx_lt_length (q : String) (l : List Row) (i : Nat)
    (h : findRowIdx q l = some i) : i < l.length := by
  induction l generalizing i with
  | nil => cases h
  | cons r rs ih =>
    unfold findRowIdx at h
    by_cases hr : (r.task_id == q) = true
    · rw [if_pos hr] at h
      cases h
      simp
    · rw [if_neg hr] at h
      cases hfind : findRowIdx q rs with
      | none => rw [hfind] at h; cases h
      | some k =>
        rw [hfind] at h
        cases h
        have := ih k hfind
        simp
        omega

/-- Claim C8, frame conditions of the two mutations: `update_task` never
changes any record's `task_id`, `status` or `created_at` (at any index,
success or not), rewrites exactly the located row by `applyUpd` (title,
assignee_id, due_date only) and leaves every other row untouched;
`mark_task_complete` never changes any record's `task_id`, `title`,
`assignee_id`, `due_date` or `created_at`, sets the located row's status
to `completed`, and leaves every other row untouched. -/
theorem claim_c8_frame (rows : List Row) (tid : Int) (nt na nd : Option String) :
    (∀ j : Nat, ((update_task rows tid nt na nd).1[j]?).map Row.task_id
        = (rows[j]?).map Row.task_id) ∧
    (∀ j : Nat, ((update_task rows tid nt na nd).1[j]?).map Row.status
        = (rows[j]?).map Row.status) ∧
    (∀ j : Nat, ((update_task rows tid nt na nd).1[j]?).map Row.created_at
        = (rows[j]?).map Row.created_at) ∧
    (∀ i : Nat, lastIdxMatching tid rows = some i →
      (update_task rows tid nt na nd).1[i]? = (rows[i]?).map (applyUpd nt na nd) ∧
      ∀ j, j ≠ i → (update_task rows tid nt na nd).1[j]? = rows[j]?) ∧
    (∀ j : Nat, ((mark_task_complete rows tid).1[j]?).map Row.task_id
        = (rows[j]?).map Row.task_id) ∧
    (∀ j : Nat, ((mark_task_complete rows tid).1[j]?).map Row.title
        = (rows[j]?).map Row.title) ∧
    (∀ j : Nat, ((mark_task_complete rows tid).1[j]?).map Row.assignee_id
        = (rows[j]?).map Row.assignee_id) ∧
    (∀ j : Nat, ((mark_task_complete rows tid).1[j]?).map Row.due_date
        = (rows[j]?).map Row.due_date) ∧
    (∀ j : Nat, ((mark_task_complete rows tid).1[j]?).map Row.created_at
        = (rows[j]?).map Row.created_at) ∧
    (∀ i : Nat, findRowIdx (toString tid) rows = some i →
      ((mark_task_complete rows tid).1[i]?).map Row.status = some STATUS_COMPLETED ∧
      ∀ j, j ≠ i → (mark_task_complete rows tid).1[j]? = rows[j]?) := by
  have hupd : ∀ j : Nat, (update_task rows tid nt na nd).1[j]?
      = (match lastIdxMatching tid rows with
         | none => rows[j]?
         | some i => if j = i then (rows[j]?).map (applyUpd nt na nd) else rows[j]?) := by
    intro j
    unfold update_task
    cases lastIdxMatching tid rows with
    | none => rfl
    | some i => simp [applyUpdAt_getElem]
  have hmark : ∀ j : Nat, (mark_task_complete rows tid).1[j]?
      = (match findRowIdx (toString tid) rows with
         | none => rows[j]?
         | some i => if j = i then
             (rows[j]?).map (fun r => { r with status := STATUS_COMPLETED })
           else rows[j]?) := by
    intro j
    unfold mark_task_complete
    cases findRowIdx (toString tid) rows with
    | none => rfl
    | some i => simp [setStatusAt_getElem]
  refine ⟨?_, ?_, ?_, ?_, ?_, ?_, ?_, ?_, ?_, ?_⟩
  · intro j
    rw [hupd j]
    cases lastIdxMatching tid rows with
    | none => rfl
    | some i =>
      by_cases hj : j = i
      · simp only [hj, if_true, eq_self_iff_true]
        cases rows[i]? <;> simp [applyUpd]
      · simp [hj]
  · intro j
    rw [hupd j]
    cases lastIdxMatching tid rows with
    | none => rfl
    | some i =>
      by_cases hj : j = i
      · simp only [hj, if_true, eq_self_iff_true]
        cases rows[i]? <;> simp [applyUpd]
      · simp [hj]
  · intro j
    rw [hupd j]
    cases lastIdxMatching tid rows with
    | none => rfl
    | some i =>
      by_cases hj : j = i
      · simp only [hj, if_true, eq_self_iff_true]
        cases rows[i]? <;> simp [applyUpd]
      · simp [hj]
  · intro i hi
    constructor
    · rw [hupd i, hi]
      simp
    · intro j hj
      rw [hupd j, hi]
      simp [hj]
  · intro j
    rw [hmark j]
    cases findRowIdx (toString tid) rows with
    | none => rfl
    | some i =>
      by_cases hj : j = i
      · simp only [hj, if_true, eq_self_iff_true]
        cases rows[i]? <;> simp
      · simp [hj]
  · intro j
    rw [hmark j]
    cases findRowIdx (toString tid) rows with
    | none => rfl
    | some i =>
      by_cases hj : j = i
      · simp only [hj, if_true, eq_self_iff_true]
        cases rows[i]? <;> simp
      · simp [hj]
  · intro j
    rw [hmark j]
    cases findRowIdx (toString tid) rows with
    | none => rfl
    | some i =>
      by_cases hj : j = i
      · simp only [hj, if_true, eq_self_iff_true]
        cases rows[i]? <;> simp
      · simp [hj]
  · intro j
    rw [hmark j]
    cases findRowIdx (toString tid) rows with
    | none => rfl
    | some i =>
      by_cases hj : j = i
      · simp only [hj, if_true, eq_self_iff_true]
        cases rows[i]? <;> simp
      · simp [hj]
  · intro j
    rw [hmark j]
    cases findRowIdx (toString tid) rows with
    | none => rfl
    | some i =>
      by_cases hj : j = i
      · simp only [hj, if_true, eq_self_iff_true]
        cases rows[i]? <;> simp
      · simp [hj]
  · intro i hi
    constructor
    · rw [hmark i, hi]
      simp only [if_true, eq_self_iff_true]
      have hlt := findRowIdx_lt_length _ _ _ hi
      cases hri : rows[i]? with
      | none =>
        rw [List.getElem?_eq_none_iff] at hri
        omega
      | some r => simp
    · intro j hj
      rw [hmark j, hi]
      simp [hj]

/-- Witness for Claim C8: updating the title of the only row rewrites it
in place by `applyUpd`, and completing it sets status `completed`. -/
theorem claim_c8_witness :
    (update_task [⟨"1", "T", "pending", "al", "2025-07-08 23:59", "c0"⟩] 1
       (some "New") none none).1[0]?
      = ([⟨"1", "T", "pending", "al", "2025-07-08 23:59", "c0"⟩][0]?).map
          (applyUpd (some "New") none none) ∧
    ((mark_task_complete [⟨"1", "T", "pending", "al", "2025-07-08 23:59", "c0"⟩] 1).1[0]?).map
        Row.status = some STATUS_COMPLETED := by
  have h := claim_c8_frame [⟨"1", "T", "pending", "al", "2025-07-08 23:59", "c0"⟩] 1
    (some "New") none none
  exact ⟨(h.2.2.2.1 0 (by decide)).1, (h.2.2.2.2.2.2.2.2.2 0 (by decide)).1⟩

/-! ## Claim C9 -/

/-- Claim C9 is violated by the code (code bug): when the combined
reminder body exceeds 2000 characters, the message actually sent is
indeed a truncated prefix (the first 1990 characters) with the
truncation marker appended — but its total length is 1990 + 15 = 2005
characters, which exceeds the 2000-character per-message ceiling the
truncation was meant to respect (bot.py:147-149). -/
theorem claim_c9_code_bug :
    reminderSend (List.replicate 2001 'a')
      = List.replicate 1990 'a' ++ truncationMarker ∧
    List.isPrefixOf (List.replicate 1990 'a') (List.replicate 2001 'a') = true ∧
    (reminderSend (List.replicate 2001 'a')).length = 2005 ∧
    2000 < (reminderSend (List.replicate 2001 'a')).length := by
  have hsend : reminderSend (List.replicate 2001 'a')
      = List.replicate 1990 'a' ++ truncationMarker := by
    unfold reminderSend
    rw [if_pos (show (List.replicate 2001 'a').length > 2000 by
      rw [List.length_replicate]
      omega)]
    rw [List.take_replicate]
    rfl
  have hm15 : truncationMarker.length = 15 := rfl
  have hlen : (reminderSend (List.replicate 2001 'a')).length = 2005 := by
    rw [hsend, List.length_append, List.length_replicate, hm15]
  refine ⟨hsend, ?_, hlen, by rw [hlen]; omega⟩
  have hpre : List.replicate 2001 'a'
      = List.replicate 1990 'a' ++ List.replicate 11 'a' := by
    rw [← List.replicate_add]
  rw [hpre]
  exact List.isPrefixOf_iff_prefix.mpr (List.prefix_append _ _)

/-! ## Claim C10 -/

theorem findRowIdx_setStatusAt (q st : String) (l : List Row) (i : Nat) :
    findRowIdx q (setStatusAt st l i) = findRowIdx q l := by
  induction l generalizing i with
  | nil => rfl
  | cons r rs ih =>
    cases i with
    | zero => simp [setStatusAt, findRowIdx]
    | succ ii => simp [setStatusAt, findRowIdx, ih]

theorem setStatusAt_idem (st : String) (l : List Row) (i : Nat) :
    setStatusAt st (setStatusAt st l i) i = setStatusAt st l i := by
  induction l generalizing i with
  | nil => rfl
  | cons r rs ih =>
    cases i with
    | zero => simp [setStatusAt]
    | succ ii => simp [setStatusAt, ih]

/-- Claim C10: for an existing task id (whatever the row's current
status), `mark_task_complete` returns `True` and rewriting is idempotent
at the store level; the Complete handler reports success both the first
time and when completing the already-completed task again. -/
theorem claim_c10_idempotent_complete (rows : List Row) (tid : Int)
    (h : (findRowIdx (toString tid) rows).isSome = true) :
    (mark_task_complete rows tid).2 = true ∧
    mark_task_complete (mark_task_complete rows tid).1 tid
      = ((mark_task_complete rows tid).1, true) ∧
    (∀ s, pyInt s = some tid →
      handle_complete_task rows ⟨some s, none⟩ 0
        = ((mark_task_complete rows tid).1, CompleteReply.completedOk tid)) ∧
    (∀ s, pyInt s = some tid →
      handle_complete_task (mark_task_complete rows tid).1 ⟨some s, none⟩ 0
        = ((mark_task_complete rows tid).1, CompleteReply.completedOk tid)) := by
  obtain ⟨i, hi⟩ := Option.isSome_iff_exists.mp h
  have hmark : mark_task_complete rows tid = (setStatusAt STATUS_COMPLETED rows i, true) := by
    unfold mark_task_complete
    rw [hi]
  have hmark2 : mark_task_complete (setStatusAt STATUS_COMPLETED rows i) tid
      = (setStatusAt STATUS_COMPLETED rows i, true) := by
    unfold mark_task_complete
    rw [findRowIdx_setStatusAt, hi]
    simp [setStatusAt_idem]
  refine ⟨by rw [hmark], ?_, ?_, ?_⟩
  · rw [hmark]
    exact hmark2
  · intro s hs
    unfold handle_complete_task
    dsimp only
    rw [hs]
    simp [runMark, hmark]
  · intro s hs
    rw [hmark]
    unfold handle_complete_task
    dsimp only
    rw [hs]
    simp [runMark, hmark2]

/-- Witness for Claim C10: completing task 1, whose status is already
`completed`, still succeeds and the handler reports success. -/
theorem claim_c10_witness :
    (mark_task_complete [⟨"1", "T", "completed", "", "", "c0"⟩] 1).2 = true ∧
    handle_complete_task [⟨"1", "T", "completed", "", "", "c0"⟩] ⟨some "1", none⟩ 0
      = ((mark_task_complete [⟨"1", "T", "completed", "", "", "c0"⟩] 1).1,
         CompleteReply.completedOk 1) := by
  have h := claim_c10_idempotent_complete [⟨"1", "T", "completed", "", "", "c0"⟩] 1
    (by decide)
  exact ⟨h.1, h.2.2.1 "1" (by decide)⟩

end TaskBot
